import Mathlib

/-!
Shallow embedding of the zincio/golangsdk client library (golangsdk.go)
and verification of its specified properties.

Go strings are modelled as Lean `String`s (all control-relevant data is
ASCII, where Go's byte-wise operations agree with Lean's character-wise
ones); raw response bodies are modelled as byte lists (`List Nat`).
Machine `int` values are modelled as `Int` (the SDK only converts them to
decimal strings, so overflow never matters on these paths). `time.Time`
is modelled by the two observations the SDK makes of it (`IsZero` and
`Unix`); `time.Duration` is an integer nanosecond count. Functions
returning Go's `(T, error)` pairs return `Option`/product types, and the
network transport is a parameter supplying the outcome of `SendRequest`.
-/

namespace Golangsdk

/-- Source: `const zincBaseURL = "https://api.zinc.io/v1"`. -/
def zincBaseURL : String := "https://api.zinc.io/v1"

/-- Source: `type Retailer string`: a Go named string type. -/
abbrev Retailer := String

def Amazon : Retailer := "amazon"
def AmazonUK : Retailer := "amazon_uk"
def AmazonCA : Retailer := "amazon_ca"
def AmazonMX : Retailer := "amazon_mx"
def Walmart : Retailer := "walmart"
def Aliexpress : Retailer := "aliexpress"

/-- Source: `type Zinc struct {ClientToken, ZincBaseURL string}`. -/
structure Zinc where
  ClientToken : String
  ZincBaseURL : String
  deriving DecidableEq, Repr

/-- Model of Go `time.Time` restricted to the two observations the SDK
makes of it: `IsZero()` (whether it is the zero Time value) and `Unix()`
(seconds since the epoch). The zero Time value has a fixed non-zero Unix
value, so the two observations are modelled as independent fields. -/
structure GoTime where
  unixSec : Int
  isZeroTime : Bool
  deriving DecidableEq, Repr

/-- Source: `type ProductOptions struct` (Timeout is a `time.Duration`,
nanoseconds). -/
structure ProductOptions where
  MaxAge : Int
  Priority : Int
  NewerThan : GoTime
  Timeout : Int
  deriving DecidableEq, Repr

/-- Source: `var DefaultProductOptions = ProductOptions{Timeout: 90s}` (other
fields are Go zero values: 0 and the zero Time). -/
def DefaultProductOptions : ProductOptions :=
  { MaxAge := 0, Priority := 0
    NewerThan := { unixSec := -62135596800, isZeroTime := true }
    Timeout := 90 * 1000000000 }

structure VariantSpecific where
  Dimension : String
  Value : String
  deriving DecidableEq, Repr

structure Variant where
  VariantSpecifics : List VariantSpecific
  ProductId : String
  deriving DecidableEq, Repr

structure ValidatorError where
  Message : String
  Path : String
  Value : String
  deriving DecidableEq, Repr

/-- Source: `type ErrorDataResponse struct`. -/
structure ErrorDataResponse where
  Message : String
  ValidatorErrors : List ValidatorError
  AllVariants : List Variant
  deriving DecidableEq, Repr

/-- Source: `type ZincError struct {ErrorMessage, Code string; Data
ErrorDataResponse}`; its `Error()` method returns `ErrorMessage`. -/
structure ZincError where
  ErrorMessage : String
  Code : String
  Data : ErrorDataResponse
  deriving DecidableEq, Repr

/-- Source: `func (z ZincError) Error() string`. -/
def ZincError.goErrorString (z : ZincError) : String := z.ErrorMessage

/-- Source: `func SimpleError(errorStr string) ZincError`. -/
def SimpleError (errorStr : String) : ZincError :=
  { ErrorMessage := errorStr, Code := "", Data := { Message := "", ValidatorErrors := [], AllVariants := [] } }

/-- Model of a Go `error` interface value as produced in this library:
either a plain `fmt.Errorf`/transport error carrying only a message, or a
typed `ZincError`. -/
inductive GoError where
  | basic (msg : String)
  | zinc (e : ZincError)
  deriving DecidableEq, Repr

/-- The `Error()` string of a modelled Go error. -/
def GoError.message : GoError → String
  | .basic m => m
  | .zinc e => e.goErrorString

/-- Source: `func GetRetailer(retailer string) (Retailer, error)`: the switch over
the six known retailer strings; the default branch returns `Amazon`
together with `fmt.Errorf("Invalid retailer string")`. -/
def GetRetailer (retailer : String) : Retailer × Option GoError :=
  if retailer = "amazon" then (Amazon, none)
  else if retailer = "amazon_uk" then (AmazonUK, none)
  else if retailer = "amazon_ca" then (AmazonCA, none)
  else if retailer = "amazon_mx" then (AmazonMX, none)
  else if retailer = "walmart" then (Walmart, none)
  else if retailer = "aliexpress" then (Aliexpress, none)
  else (Amazon, some (.basic "Invalid retailer string"))

/-- The closed enumeration of valid retailer strings. -/
def validRetailerStrings : List String :=
  ["amazon", "amazon_uk", "amazon_ca", "amazon_mx", "walmart", "aliexpress"]

/-- Source: `func NewZinc(clientToken string) (*Zinc, error)`: always builds a
client with the fixed base URL and returns a nil error. -/
def NewZinc (clientToken : String) : Option Zinc × Option GoError :=
  (some { ClientToken := clientToken, ZincBaseURL := zincBaseURL }, none)

/-- Model of Go `strings.Index` as the SDK uses it: the index of the first
occurrence of `pat` in `s`, `none` standing for Go's `-1`. -/
def goIndex {α : Type} [BEq α] (s pat : List α) : Option Nat :=
  if pat.isPrefixOf s then some 0
  else
    match s with
    | [] => none
    | _ :: t => Option.map (· + 1) (goIndex t pat)

/-- The bytes of the literal marker `"HTTP/1.1 200 OK"` searched for by
`cleanRespBody` (all ASCII, so byte values equal character codes). -/
def httpMarkerBytes : List Nat := "HTTP/1.1 200 OK".toList.map Char.toNat

/-- Source: `func cleanRespBody(respBody []byte) []byte`: truncate the body at the
first occurrence of the marker; return it unchanged when the marker is
absent. -/
def cleanRespBody (respBody : List Nat) : List Nat :=
  match goIndex respBody httpMarkerBytes with
  | none => respBody
  | some i => respBody.take i

/-- Spec-side predicate: the marker occurs in `b` starting at index `j`. -/
def markerAt (b : List Nat) (j : Nat) : Bool :=
  httpMarkerBytes.isPrefixOf (b.drop j)

/-- Model of Go `strings.Contains` (used only to state properties about
error-message strings, which are ASCII on this path). -/
def strContains (s pat : String) : Bool :=
  (goIndex s.toList pat.toList).isSome

structure ShippingOption where
  Price : Int
  deriving DecidableEq, Repr

structure HandlingDays where
  Max : Int
  Min : Int
  deriving DecidableEq, Repr

structure Seller where
  NumRatings : Int
  PercentPositive : Int
  FirstParty : Bool
  Name : String
  Id : String
  deriving DecidableEq, Repr

structure ProductOffer where
  Available : Bool
  Addon : Bool
  Condition : String
  ShippingOptions : List ShippingOption
  HandlingDays : HandlingDays
  PrimeOnly : Bool
  MarketplaceFulfilled : Bool
  Currency : String
  Seller : Seller
  BuyBoxWinner : Bool
  International : Bool
  OfferId : String
  Price : Int
  deriving DecidableEq, Repr

/-- Source: `type ProductOffersResponse struct`. -/
structure ProductOffersResponse where
  Code : String
  Data : ErrorDataResponse
  Status : String
  Retailer : String
  Offers : List ProductOffer
  deriving DecidableEq, Repr

structure ExternalProductId where
  GoType : String
  Value : String
  deriving DecidableEq, Repr

/-- Source: `type ProductDetailsResponse struct`. -/
structure ProductDetailsResponse where
  Code : String
  Data : ErrorDataResponse
  Status : String
  ProductDescription : String
  PostDescription : String
  Retailer : String
  Epids : List ExternalProductId
  ProductDetails : List String
  Title : String
  VariantSpecifics : List VariantSpecific
  ProductId : String
  MainImage : String
  Brand : String
  MPN : String
  Images : List String
  FeatureBullets : List String
  deriving DecidableEq, Repr

structure SellerSelectionCriteria where
  Prime : Bool
  deriving DecidableEq, Repr

structure GoProduct where
  ProductId : String
  Quantity : Int
  SellerSelectionCriteria : Option SellerSelectionCriteria
  deriving DecidableEq, Repr

structure Shipping where
  OrderBy : String
  MaxDays : Int
  MaxPrice : Int
  deriving DecidableEq, Repr

structure Address where
  FirstName : String
  LastName : String
  AddressLine1 : String
  AddressLine2 : String
  ZipCode : String
  City : String
  State : String
  Country : String
  PhoneNumber : String
  deriving DecidableEq, Repr

structure PaymentMethod where
  NameOnCard : String
  Number : String
  SecurityCode : String
  ExpirationMonth : Int
  ExpirationYear : Int
  UseGift : Bool
  deriving DecidableEq, Repr

structure RetailerCredentials where
  Email : String
  Password : String
  VerificationCode : String
  deriving DecidableEq, Repr

structure Webhooks where
  RequestSucceeded : String
  RequestFailed : String
  TrackingObtained : String
  StatusUpdated : String
  deriving DecidableEq, Repr

/-- Source: `type OrderRequest struct` (pointer fields become `Option`). -/
structure OrderRequest where
  Retailer : Retailer
  Products : List GoProduct
  ShippingMethod : String
  Shipping : Option Shipping
  ShippingAddress : Option Address
  BillingAddress : Option Address
  PaymentMethod : Option PaymentMethod
  RetailerCredentials : Option RetailerCredentials
  GiftMessage : String
  IsGift : Bool
  MaxPrice : Int
  Webhooks : Option Webhooks
  Bundled : Bool
  Addax : Bool
  deriving DecidableEq, Repr

structure PriceComponents where
  Shipping : Int
  Subtotal : Int
  Tax : Int
  Total : Int
  deriving DecidableEq, Repr

structure MerchantOrderId where
  MerchantOrderId : String
  Merchant : String
  Account : String
  PlacedAt : GoTime
  deriving DecidableEq, Repr

structure Tracking where
  MerchantOrderId : String
  ObtainedAt : GoTime
  Carrier : String
  TrackingNumber : String
  ProductIds : List String
  TrackingURL : String
  deriving DecidableEq, Repr

/-- Source: `type OrderResponse struct`. -/
structure OrderResponse where
  RequestId : String
  GoType : String
  Code : String
  Data : ErrorDataResponse
  ErrorMessage : String
  PriceComponents : PriceComponents
  MerchantOrderIds : List MerchantOrderId
  Tracking : List Tracking
  Request : OrderRequest
  deriving DecidableEq, Repr

/-- Go `fmt` `%v` rendering of a slice: elements space-separated inside
square brackets. -/
def goFmtList {α : Type} (f : α → String) (l : List α) : String :=
  "[" ++ String.intercalate " " (l.map f) ++ "]"

/-- Go `fmt` `%+v` rendering of a `VariantSpecific` value. -/
def goFmtVariantSpecific (v : VariantSpecific) : String :=
  "\x7bDimension:" ++ v.Dimension ++ " Value:" ++ v.Value ++ "\x7d"

/-- Go `fmt` `%+v` rendering of a `ValidatorError` value. -/
def goFmtValidatorError (v : ValidatorError) : String :=
  "\x7bMessage:" ++ v.Message ++ " Path:" ++ v.Path ++ " Value:" ++ v.Value ++ "\x7d"

/-- Go `fmt` `%+v` rendering of a `Variant` value. -/
def goFmtVariant (v : Variant) : String :=
  "\x7bVariantSpecifics:" ++ goFmtList goFmtVariantSpecific v.VariantSpecifics ++
    " ProductId:" ++ v.ProductId ++ "\x7d"

/-- Go `fmt` `%+v` rendering of an `ErrorDataResponse` value. -/
def goFmtErrorData (d : ErrorDataResponse) : String :=
  "\x7bMessage:" ++ d.Message ++
    " ValidatorErrors:" ++ goFmtList goFmtValidatorError d.ValidatorErrors ++
    " AllVariants:" ++ goFmtList goFmtVariant d.AllVariants ++ "\x7d"

/-- The message built by `fmt.Sprintf("Zinc API returned status 'failed'
data=%+v", resp.Data)` in both product fetches. -/
def failedStatusMsg (d : ErrorDataResponse) : String :=
  "Zinc API returned status 'failed' data=" ++ goFmtErrorData d

/-- Outcome of a `SendRequest` call: either an error (request creation,
transport, body read, or JSON decode failure, the latter already wrapped
as a `SimpleError` by `SendRequest`), or success with the decoded value. -/
inductive SendOutcome (α : Type) where
  | err (e : GoError)
  | ok (resp : α)
  deriving DecidableEq, Repr

/-- True when the outcome is an error. -/
def SendOutcome.isErr {α : Type} : SendOutcome α → Bool
  | .err _ => true
  | .ok _ => false

/-- The UTF-8 bytes of a character (Go strings are UTF-8 byte sequences). -/
def utf8Bytes (c : Char) : List Nat :=
  let n := c.toNat
  if n < 128 then [n]
  else if n < 2048 then [192 + n / 64, 128 + n % 64]
  else if n < 65536 then [224 + n / 4096, 128 + (n / 64) % 64, 128 + n % 64]
  else [240 + n / 262144, 128 + (n / 4096) % 64, 128 + (n / 64) % 64, 128 + n % 64]

/-- Which bytes `url.QueryEscape` leaves untouched: ASCII alphanumerics and
`-`, `_`, `.`, `~`. -/
def isUnreservedQueryByte (b : Nat) : Bool :=
  (65 ≤ b && b ≤ 90) || (97 ≤ b && b ≤ 122) || (48 ≤ b && b ≤ 57) ||
    b == 45 || b == 95 || b == 46 || b == 126

/-- Uppercase hexadecimal digit character for a value below 16. -/
def hexUpper (n : Nat) : Char :=
  if n < 10 then Char.ofNat (48 + n) else Char.ofNat (55 + n)

/-- Escape of one byte under Go `url.QueryEscape`: unreserved bytes pass
through, a space becomes `+`, everything else becomes `%XX`. -/
def queryEscapeByte (b : Nat) : String :=
  if isUnreservedQueryByte b then String.singleton (Char.ofNat b)
  else if b == 32 then "+"
  else "%" ++ String.singleton (hexUpper (b / 16)) ++ String.singleton (hexUpper (b % 16))

/-- Model of Go `url.QueryEscape`. -/
def queryEscape (s : String) : String :=
  String.join (s.toList.map (fun c => String.join ((utf8Bytes c).map queryEscapeByte)))

/-- Insert a key/value pair into a key-sorted association list. -/
def insertValuesSorted (kv : String × String) :
    List (String × String) → List (String × String)
  | [] => [kv]
  | x :: xs => if x.1 < kv.1 then x :: insertValuesSorted kv xs else kv :: x :: xs

/-- Sort an association list by key (as `url.Values.Encode` sorts keys). -/
def sortValuesByKey (vs : List (String × String)) : List (String × String) :=
  vs.foldr insertValuesSorted []

/-- Model of `url.Values.Encode()` for the single-valued maps this SDK
builds: keys sorted, each pair escaped and joined as `k=v` with `&`. -/
def urlValuesEncode (vs : List (String × String)) : String :=
  String.intercalate "&"
    ((sortValuesByKey vs).map (fun kv => queryEscape kv.1 ++ "=" ++ queryEscape kv.2))

/-- Query values built by `GetProductDetails`: `retailer` always;
`max_age`, `newer_than` (as a Unix timestamp) and `priority` only when
non-zero (for `newer_than`, when the Time value is not the zero Time). -/
def detailsValues (retailer : Retailer) (options : ProductOptions) :
    List (String × String) :=
  [("retailer", retailer)] ++
    (if options.MaxAge ≠ 0 then [("max_age", toString options.MaxAge)] else []) ++
    (if options.NewerThan.isZeroTime = false then
      [("newer_than", toString options.NewerThan.unixSec)] else []) ++
    (if options.Priority ≠ 0 then [("priority", toString options.Priority)] else [])

/-- Query values built by `GetProductOffers`: `retailer` and the fixed
`version=2` always; `max_age` and `newer_than` as in the details fetch
(no `priority` parameter on this endpoint). -/
def offersValues (retailer : Retailer) (options : ProductOptions) :
    List (String × String) :=
  [("retailer", retailer), ("version", "2")] ++
    (if options.MaxAge ≠ 0 then [("max_age", toString options.MaxAge)] else []) ++
    (if options.NewerThan.isZeroTime = false then
      [("newer_than", toString options.NewerThan.unixSec)] else [])

/-- An HTTP request as handed to `SendRequest` (method and full URL). -/
structure HTTPRequest where
  method : String
  url : String
  deriving DecidableEq, Repr

/-- The request built by `GetProductDetails`:
`GET {base}/products/{productId}?{encoded values}`. -/
def detailsRequest (z : Zinc) (productId : String) (retailer : Retailer)
    (options : ProductOptions) : HTTPRequest :=
  { method := "GET"
    url := z.ZincBaseURL ++ "/products/" ++ productId ++ "?" ++
      urlValuesEncode (detailsValues retailer options) }

/-- The request built by `GetProductOffers`:
`GET {base}/products/{productId}/offers?{encoded values}`. -/
def offersRequest (z : Zinc) (productId : String) (retailer : Retailer)
    (options : ProductOptions) : HTTPRequest :=
  { method := "GET"
    url := z.ZincBaseURL ++ "/products/" ++ productId ++ "/offers?" ++
      urlValuesEncode (offersValues retailer options) }

/-- The request built by `SendOrder`: `POST {base}/orders`. -/
def ordersRequest (z : Zinc) : HTTPRequest :=
  { method := "POST", url := z.ZincBaseURL ++ "/orders" }

/-- Source: `func (z Zinc) GetProductOffers`: build the offers request,
run it through the transport `net`, wrap transport/decode errors with
`SimpleError`, and surface a parsed response whose `Status` is "failed"
as a `ZincError` alongside the partially populated result. -/
def GetProductOffers (net : HTTPRequest → SendOutcome ProductOffersResponse)
    (z : Zinc) (productId : String) (retailer : Retailer)
    (options : ProductOptions) :
    Option ProductOffersResponse × Option GoError :=
  match net (offersRequest z productId retailer options) with
  | .err e => (none, some (.zinc (SimpleError e.message)))
  | .ok resp =>
    if resp.Status = "failed" then
      (some resp, some (.zinc { ErrorMessage := failedStatusMsg resp.Data
                                Code := resp.Code, Data := resp.Data }))
    else (some resp, none)

/-- Source: `func (z Zinc) GetProductDetails`: same shape as the offers
fetch against the details endpoint. -/
def GetProductDetails (net : HTTPRequest → SendOutcome ProductDetailsResponse)
    (z : Zinc) (productId : String) (retailer : Retailer)
    (options : ProductOptions) :
    Option ProductDetailsResponse × Option GoError :=
  match net (detailsRequest z productId retailer options) with
  | .err e => (none, some (.zinc (SimpleError e.message)))
  | .ok resp =>
    if resp.Status = "failed" then
      (some resp, some (.zinc { ErrorMessage := failedStatusMsg resp.Data
                                Code := resp.Code, Data := resp.Data }))
    else (some resp, none)

/-- Join step of `GetProductInfo`: after both goroutines have delivered
their `(result, error)` pairs, the two errors are read from the shared
channel in goroutine completion order (`offersErrFirst`); the first
non-nil one makes the call return `(nil, nil, err)`, otherwise both
results are returned. -/
def goroutineJoin (od : Option ProductOffersResponse × Option GoError)
    (dd : Option ProductDetailsResponse × Option GoError)
    (offersErrFirst : Bool) :
    Option ProductOffersResponse × Option ProductDetailsResponse × Option GoError :=
  match (if offersErrFirst then od.2 else dd.2),
      (if offersErrFirst then dd.2 else od.2) with
  | some e, _ => (none, none, some e)
  | none, some e => (none, none, some e)
  | none, none => (od.1, dd.1, none)

/-- Source: `func (z Zinc) GetProductInfo`: run the offers and details
fetches as two goroutines, read both results, then read the two errors
from the shared channel in goroutine completion order and return
`(nil, nil, err)` on the first non-nil one. `offersErrFirst` models the
nondeterministic order in which the two goroutines write to the shared
error channel. -/
def GetProductInfo (onet : HTTPRequest → SendOutcome ProductOffersResponse)
    (dnet : HTTPRequest → SendOutcome ProductDetailsResponse)
    (offersErrFirst : Bool) (z : Zinc) (productId : String)
    (retailer : Retailer) (options : ProductOptions) :
    Option ProductOffersResponse × Option ProductDetailsResponse × Option GoError :=
  goroutineJoin (GetProductOffers onet z productId retailer options)
    (GetProductDetails dnet z productId retailer options) offersErrFirst

/-- Source: `func (z Zinc) SendOrder`: encode the order (`encodeOutcome`
is `some msg` when `json.Encode` fails with message `msg`), POST it, and
wrap any encode/transport/decode failure with `SimpleError`; a parsed
response is returned as-is with a nil error, with no check of its
embedded status/code fields. -/
def SendOrder (encodeOutcome : Option String)
    (net : HTTPRequest → SendOutcome OrderResponse) (z : Zinc)
    (order : OrderRequest) : Option OrderResponse × Option GoError :=
  match encodeOutcome with
  | some msg => (none, some (.zinc (SimpleError msg)))
  | none =>
    match net (ordersRequest z) with
    | .err e => (none, some (.zinc (SimpleError e.message)))
    | .ok resp => (some resp, none)

/-- A concrete client for witnesses. -/
def testZinc : Zinc := { ClientToken := "token", ZincBaseURL := zincBaseURL }

/-- Concrete error data of the response body
`{"status":"failed","code":"X","data":{"message":"m"}}`. -/
def failedDataXm : ErrorDataResponse :=
  { Message := "m", ValidatorErrors := [], AllVariants := [] }

/-- Concrete parsed details response for the body
`{"status":"failed","code":"X","data":{"message":"m"}}` (all other fields
are Go zero values). -/
def failedDetailsResp : ProductDetailsResponse :=
  { Code := "X", Data := failedDataXm, Status := "failed"
    ProductDescription := "", PostDescription := "", Retailer := ""
    Epids := [], ProductDetails := [], Title := "", VariantSpecifics := []
    ProductId := "", MainImage := "", Brand := "", MPN := ""
    Images := [], FeatureBullets := [] }

/-- Concrete parsed offers response for the same failed body. -/
def failedOffersResp : ProductOffersResponse :=
  { Code := "X", Data := failedDataXm, Status := "failed"
    Retailer := "", Offers := [] }

/-- A successfully parsed details response (empty, status not "failed"). -/
def okDetailsResp : ProductDetailsResponse :=
  { Code := "", Data := { Message := "", ValidatorErrors := [], AllVariants := [] }
    Status := "", ProductDescription := "", PostDescription := "", Retailer := ""
    Epids := [], ProductDetails := [], Title := "", VariantSpecifics := []
    ProductId := "", MainImage := "", Brand := "", MPN := ""
    Images := [], FeatureBullets := [] }

/-- Concrete options with zero max_age and priority but a set newer_than
(Unix timestamp 12345). -/
def optsZeroAgePriority : ProductOptions :=
  { MaxAge := 0, Priority := 0
    NewerThan := { unixSec := 12345, isZeroTime := false }
    Timeout := 0 }

/-- A successfully parsed offers response (empty, status not "failed"). -/
def okOffersResp : ProductOffersResponse :=
  { Code := "", Data := { Message := "", ValidatorErrors := [], AllVariants := [] }
    Status := "", Retailer := "", Offers := [] }

end Golangsdk

namespace Golangsdk

/-- C4: every string in the closed enumeration parses to the retailer whose
string form equals the input (round-trip), and every other string is
rejected with the invalid-input error. -/
theorem getRetailer_roundtrip_and_rejects (s : String) :
    (s ∈ validRetailerStrings → GetRetailer s = (s, none)) ∧
    (s ∉ validRetailerStrings →
      (GetRetailer s).2 = some (GoError.basic "Invalid retailer string")) := by
  constructor
  · intro hs
    simp only [validRetailerStrings, List.mem_cons, List.not_mem_nil, or_false] at hs
    rcases hs with h | h | h | h | h | h <;> subst h <;> rfl
  · intro hs
    simp only [validRetailerStrings, List.mem_cons, List.mem_singleton, not_or] at hs
    obtain ⟨h1, h2, h3, h4, h5, h6⟩ := hs
    simp [GetRetailer, h1, h2, h3, h4, h5, h6]

/-- Witness for C4: "amazon" round-trips; "ebay" is rejected. -/
theorem getRetailer_roundtrip_and_rejects_witness :
    GetRetailer "amazon" = ("amazon", none) ∧
    (GetRetailer "ebay").2 = some (GoError.basic "Invalid retailer string") :=
  ⟨(getRetailer_roundtrip_and_rejects "amazon").1 (by decide),
   (getRetailer_roundtrip_and_rejects "ebay").2 (by decide)⟩

/-- C8: for every invalid retailer string, GetRetailer returns the value
`Amazon` alongside the error, so a caller ignoring the error silently
obtains the amazon retailer. -/
theorem getRetailer_invalid_defaults_to_amazon (s : String)
    (hs : s ∉ validRetailerStrings) :
    GetRetailer s = (Amazon, some (GoError.basic "Invalid retailer string")) := by
  simp only [validRetailerStrings, List.mem_cons, List.mem_singleton, not_or] at hs
  obtain ⟨h1, h2, h3, h4, h5, h6⟩ := hs
  simp [GetRetailer, h1, h2, h3, h4, h5, h6]

/-- Witness for C8 at the invalid string "ebay". -/
theorem getRetailer_invalid_defaults_to_amazon_witness :
    GetRetailer "ebay" = (Amazon, some (GoError.basic "Invalid retailer string")) :=
  getRetailer_invalid_defaults_to_amazon "ebay" (by decide)

/-- C9: for every token string, NewZinc returns a non-nil client whose base
endpoint is "https://api.zinc.io/v1" and a nil error: construction can
never fail. -/
theorem newZinc_never_fails (tok : String) :
    NewZinc tok =
      (some { ClientToken := tok, ZincBaseURL := "https://api.zinc.io/v1" }, none) := rfl

theorem goIndex_nil {α : Type} [BEq α] (pat : List α) :
    goIndex [] pat = if pat.isPrefixOf [] then some 0 else none := by
  rw [goIndex]

theorem goIndex_cons {α : Type} [BEq α] (a : α) (t pat : List α) :
    goIndex (a :: t) pat =
      if pat.isPrefixOf (a :: t) then some 0
      else Option.map (· + 1) (goIndex t pat) := by
  rw [goIndex]

theorem goIndex_none_no_occurrence {α : Type} [BEq α] (s pat : List α)
    (h : goIndex s pat = none) : ∀ j, pat.isPrefixOf (s.drop j) = false := by
  induction s with
  | nil =>
    intro j
    rw [goIndex_nil] at h
    by_cases hp : pat.isPrefixOf ([] : List α) = true
    · simp [hp] at h
    · simpa using (Bool.eq_false_iff.mpr (by simpa using hp))
  | cons a t ih =>
    rw [goIndex_cons] at h
    by_cases hp : pat.isPrefixOf (a :: t) = true
    · simp [hp] at h
    · have hnone : goIndex t pat = none := by
        by_cases ht : goIndex t pat = none
        · exact ht
        · obtain ⟨k, hk⟩ := Option.ne_none_iff_exists'.mp ht
          simp [hp, hk] at h
      intro j
      cases j with
      | zero => simpa using (Bool.eq_false_iff.mpr (by simpa using hp))
      | succ j => simpa using ih hnone j

theorem goIndex_some_found {α : Type} [BEq α] (s pat : List α) (i : Nat)
    (h : goIndex s pat = some i) : pat.isPrefixOf (s.drop i) = true := by
  induction s generalizing i with
  | nil =>
    rw [goIndex_nil] at h
    by_cases hp : pat.isPrefixOf ([] : List α) = true
    · simp [hp] at h
      subst h
      simpa using hp
    · simp [Bool.eq_false_iff.mpr (by simpa using hp)] at h
  | cons a t ih =>
    rw [goIndex_cons] at h
    by_cases hp : pat.isPrefixOf (a :: t) = true
    · simp [hp] at h
      subst h
      simpa using hp
    · simp [Bool.eq_false_iff.mpr (by simpa using hp)] at h
      obtain ⟨k, hk, hki⟩ := h
      subst hki
      simpa using ih k hk

theorem goIndex_some_least {α : Type} [BEq α] (s pat : List α) (i : Nat)
    (h : goIndex s pat = some i) :
    ∀ j, j < i → pat.isPrefixOf (s.drop j) = false := by
  induction s generalizing i with
  | nil =>
    rw [goIndex_nil] at h
    by_cases hp : pat.isPrefixOf ([] : List α) = true
    · simp [hp] at h
      subst h
      intro j hj
      exact absurd hj (Nat.not_lt_zero j)
    · simp [Bool.eq_false_iff.mpr (by simpa using hp)] at h
  | cons a t ih =>
    rw [goIndex_cons] at h
    by_cases hp : pat.isPrefixOf (a :: t) = true
    · simp [hp] at h
      subst h
      intro j hj
      exact absurd hj (Nat.not_lt_zero j)
    · simp [Bool.eq_false_iff.mpr (by simpa using hp)] at h
      obtain ⟨k, hk, hki⟩ := h
      subst hki
      intro j hj
      cases j with
      | zero => simpa using (Bool.eq_false_iff.mpr (by simpa using hp))
      | succ j => simpa using ih k hk j (Nat.lt_of_succ_lt_succ hj)

theorem isPrefixOf_of_isPrefixOf_take {α : Type} [BEq α] :
    ∀ (p : List α) (k : Nat) (x : List α),
      p.isPrefixOf (x.take k) = true → p.isPrefixOf x = true := by
  intro p
  induction p with
  | nil => intro k x _; simp [List.isPrefixOf]
  | cons a ps ih =>
    intro k x h
    cases k with
    | zero => simp [List.isPrefixOf] at h
    | succ k =>
      cases x with
      | nil => simp [List.isPrefixOf] at h
      | cons b xs =>
        simp only [List.take, List.isPrefixOf, Bool.and_eq_true] at h ⊢
        exact ⟨h.1, ih k xs h.2⟩

theorem drop_take_interchange {α : Type} :
    ∀ (j i : Nat) (b : List α), (b.take i).drop j = (b.drop j).take (i - j) := by
  intro j
  induction j with
  | zero => intro i b; simp
  | succ j ihj =>
    intro i b
    cases b with
    | nil => simp
    | cons a t =>
      cases i with
      | zero => simp
      | succ i =>
        simp only [List.take, List.drop]
        rw [ihj i t]
        congr 1
        omega

/-- C6: the sanitizer removes everything starting at the first occurrence
of the literal marker "HTTP/1.1 200 OK", and returns the body unchanged
when the marker is absent. The two disjuncts are mutually exclusive, so
this characterizes `cleanRespBody` completely. -/
theorem cleanRespBody_trims_at_first_marker (b : List Nat) :
    (cleanRespBody b = b ∧ ∀ j, markerAt b j = false) ∨
    (∃ i, cleanRespBody b = b.take i ∧ markerAt b i = true ∧
      ∀ j, j < i → markerAt b j = false) := by
  cases h : goIndex b httpMarkerBytes with
  | none =>
    left
    constructor
    · simp [cleanRespBody, h]
    · intro j
      exact goIndex_none_no_occurrence b httpMarkerBytes h j
  | some i =>
    right
    refine ⟨i, ?_, ?_, ?_⟩
    · simp [cleanRespBody, h]
    · exact goIndex_some_found b httpMarkerBytes i h
    · exact goIndex_some_least b httpMarkerBytes i h

/-- C10: the body sanitizer is idempotent: the truncated output never
contains the marker, so a second pass changes nothing. -/
theorem cleanRespBody_idempotent (b : List Nat) :
    cleanRespBody (cleanRespBody b) = cleanRespBody b := by
  cases h : goIndex b httpMarkerBytes with
  | none =>
    have hb : cleanRespBody b = b := by simp [cleanRespBody, h]
    rw [hb]
    simp [cleanRespBody, h]
  | some i =>
    have hb : cleanRespBody b = b.take i := by simp [cleanRespBody, h]
    rw [hb]
    have hnone : goIndex (b.take i) httpMarkerBytes = none := by
      cases hg : goIndex (b.take i) httpMarkerBytes with
      | none => rfl
      | some j =>
        exfalso
        have hfound := goIndex_some_found (b.take i) httpMarkerBytes j hg
        have hne : (b.take i).drop j ≠ [] := by
          intro hemp
          rw [hemp] at hfound
          exact absurd hfound (by decide)
        have hji : j < i := by
          have hlen : 0 < ((b.take i).drop j).length :=
            List.length_pos.mpr hne
          rw [List.length_drop] at hlen
          have hj : j < (b.take i).length := by omega
          have : (b.take i).length ≤ i := by
            rw [List.length_take]
            omega
          omega
        rw [drop_take_interchange j i b] at hfound
        have hpre := isPrefixOf_of_isPrefixOf_take httpMarkerBytes (i - j) (b.drop j) hfound
        have hleast := goIndex_some_least b httpMarkerBytes i h j hji
        rw [hpre] at hleast
        exact absurd hleast (by decide)
    simp [cleanRespBody, hnone]

theorem isPrefixOf_self_append {α : Type} [BEq α] [LawfulBEq α] (p t : List α) :
    p.isPrefixOf (p ++ t) = true := by
  induction p with
  | nil => simp [List.isPrefixOf]
  | cons a ps ih => simp [List.isPrefixOf, ih]

theorem goIndex_isSome_of_found {α : Type} [BEq α] (s pat : List α) (j : Nat)
    (h : pat.isPrefixOf (s.drop j) = true) : (goIndex s pat).isSome = true := by
  cases hg : goIndex s pat with
  | none => exact absurd h (by simp [goIndex_none_no_occurrence s pat hg j])
  | some i => rfl

theorem strContains_middle (x m y : String) : strContains (x ++ m ++ y) m = true := by
  unfold strContains
  have hlist : (x ++ m ++ y).toList = x.toList ++ (m.toList ++ y.toList) := by
    simp [String.toList]
  rw [hlist]
  apply goIndex_isSome_of_found _ _ x.toList.length
  rw [List.drop_left]
  exact isPrefixOf_self_append _ _

theorem failedStatusMsg_contains_message (d : ErrorDataResponse) :
    strContains (failedStatusMsg d) d.Message = true := by
  have h : failedStatusMsg d =
      ("Zinc API returned status 'failed' data=" ++ "\x7bMessage:") ++ d.Message ++
        (" ValidatorErrors:" ++ goFmtList goFmtValidatorError d.ValidatorErrors ++
          " AllVariants:" ++ goFmtList goFmtVariant d.AllVariants ++ "\x7d") := by
    simp only [failedStatusMsg, goFmtErrorData, String.append_assoc]
  rw [h]
  exact strContains_middle _ _ _

/-- C1 counterexample: for the parsed body
`{"status":"failed","code":"X","data":{"message":"m"}}` the details fetch
returns a non-null partial result and a non-null typed error whose message
contains the data message "m", but the message does NOT contain the
response's code "X" (the code is carried only in the error's `Code`
field, not in its message). -/
theorem getProductDetails_failed_message_lacks_code :
    GetProductDetails (fun _ => .ok failedDetailsResp) testZinc "p" Amazon
        DefaultProductOptions =
      (some failedDetailsResp,
        some (.zinc { ErrorMessage := failedStatusMsg failedDataXm
                      Code := "X", Data := failedDataXm })) ∧
    strContains (failedStatusMsg failedDataXm) "m" = true ∧
    strContains (failedStatusMsg failedDataXm) "X" = false := by
  refine ⟨rfl, by decide, by decide⟩

/-- C1 (amended): for every product details or offers fetch whose response
body parses successfully with status "failed", the fetch returns both a
non-null partially-populated result and a non-null typed error whose
`Code` field equals the response's code and whose message contains the
error-data message (the code itself is carried in the error's `Code`
field, not embedded in the message text). -/
theorem productFetch_failed_status_surfaces_error
    (z : Zinc) (pid : String) (r : Retailer) (opts : ProductOptions)
    (dnet : HTTPRequest → SendOutcome ProductDetailsResponse)
    (dresp : ProductDetailsResponse)
    (hd : dnet (detailsRequest z pid r opts) = .ok dresp)
    (hds : dresp.Status = "failed")
    (onet : HTTPRequest → SendOutcome ProductOffersResponse)
    (oresp : ProductOffersResponse)
    (ho : onet (offersRequest z pid r opts) = .ok oresp)
    (hos : oresp.Status = "failed") :
    GetProductDetails dnet z pid r opts =
      (some dresp, some (.zinc { ErrorMessage := failedStatusMsg dresp.Data
                                 Code := dresp.Code, Data := dresp.Data })) ∧
    strContains (failedStatusMsg dresp.Data) dresp.Data.Message = true ∧
    GetProductOffers onet z pid r opts =
      (some oresp, some (.zinc { ErrorMessage := failedStatusMsg oresp.Data
                                 Code := oresp.Code, Data := oresp.Data })) ∧
    strContains (failedStatusMsg oresp.Data) oresp.Data.Message = true := by
  refine ⟨?_, failedStatusMsg_contains_message _, ?_,
    failedStatusMsg_contains_message _⟩
  · simp [GetProductDetails, hd, hds]
  · simp [GetProductOffers, ho, hos]

/-- Witness for C1 (amended) at the concrete failed responses. -/
theorem productFetch_failed_status_surfaces_error_witness :
    GetProductDetails (fun _ => .ok failedDetailsResp) testZinc "p" Amazon
        DefaultProductOptions =
      (some failedDetailsResp,
        some (.zinc { ErrorMessage := failedStatusMsg failedDataXm
                      Code := "X", Data := failedDataXm })) ∧
    strContains (failedStatusMsg failedDataXm) "m" = true ∧
    GetProductOffers (fun _ => .ok failedOffersResp) testZinc "p" Amazon
        DefaultProductOptions =
      (some failedOffersResp,
        some (.zinc { ErrorMessage := failedStatusMsg failedDataXm
                      Code := "X", Data := failedDataXm })) := by
  have h := productFetch_failed_status_surfaces_error testZinc "p" Amazon
    DefaultProductOptions (fun _ => .ok failedDetailsResp) failedDetailsResp
    rfl rfl (fun _ => .ok failedOffersResp) failedOffersResp rfl rfl
  exact ⟨h.1, by decide, h.2.2.1⟩

/-- C2: when exactly one of the two sub-calls of GetProductInfo fails, the
combined call returns both result pointers nil together with the failing
sub-call's non-null error, for either goroutine completion order: the
successful partial result is discarded. -/
theorem getProductInfo_no_partial_success
    (onet : HTTPRequest → SendOutcome ProductOffersResponse)
    (dnet : HTTPRequest → SendOutcome ProductDetailsResponse)
    (offersErrFirst : Bool) (z : Zinc) (pid : String) (r : Retailer)
    (opts : ProductOptions)
    (h : ((GetProductOffers onet z pid r opts).2.isSome = true ∧
            (GetProductDetails dnet z pid r opts).2 = none) ∨
         ((GetProductDetails dnet z pid r opts).2.isSome = true ∧
            (GetProductOffers onet z pid r opts).2 = none)) :
    GetProductInfo onet dnet offersErrFirst z pid r opts =
      (none, none,
        if (GetProductOffers onet z pid r opts).2.isSome
        then (GetProductOffers onet z pid r opts).2
        else (GetProductDetails dnet z pid r opts).2) := by
  rcases h with ⟨h1, h2⟩ | ⟨h1, h2⟩
  · obtain ⟨e, he⟩ := Option.isSome_iff_exists.mp h1
    cases offersErrFirst <;> simp [GetProductInfo, goroutineJoin, he, h2]
  · obtain ⟨e, he⟩ := Option.isSome_iff_exists.mp h1
    cases offersErrFirst <;> simp [GetProductInfo, goroutineJoin, he, h2]

/-- Witness for C2: the offers transport fails, the details call succeeds,
and the combined call returns (nil, nil, the offers error). -/
theorem getProductInfo_no_partial_success_witness :
    GetProductInfo (fun _ => .err (.basic "boom")) (fun _ => .ok okDetailsResp)
        true testZinc "p" Amazon DefaultProductOptions =
      (none, none, some (GoError.zinc (SimpleError "boom"))) := by
  have h := getProductInfo_no_partial_success (fun _ => .err (.basic "boom"))
    (fun _ => .ok okDetailsResp) true testZinc "p" Amazon DefaultProductOptions
    (Or.inl ⟨by decide, by decide⟩)
  exact h.trans (by decide)

/-- C3: SendOrder returns a nil response with a typed error exactly when
JSON encoding, the transport call, or response decoding fails; a parsed
response is returned with a nil error regardless of its embedded status
fields. -/
theorem sendOrder_error_exactly_on_failures
    (enc : Option String) (net : HTTPRequest → SendOutcome OrderResponse)
    (z : Zinc) (order : OrderRequest) (msg : String) (e : GoError)
    (resp : OrderResponse) :
    ((SendOrder enc net z order).2.isSome =
      (enc.isSome || (net (ordersRequest z)).isErr)) ∧
    ((SendOrder enc net z order).1.isSome =
      (!(enc.isSome || (net (ordersRequest z)).isErr))) ∧
    (SendOrder (some msg) net z order =
      (none, some (.zinc (SimpleError msg)))) ∧
    (SendOrder none (fun _ => .err e) z order =
      (none, some (.zinc (SimpleError e.message)))) ∧
    (SendOrder none (fun _ => .ok resp) z order = (some resp, none)) := by
  refine ⟨?_, ?_, rfl, rfl, rfl⟩
  · cases enc with
    | some m => rfl
    | none =>
      cases ho : net (ordersRequest z) with
      | err e2 => simp [SendOrder, ho, SendOutcome.isErr]
      | ok r2 => simp [SendOrder, ho, SendOutcome.isErr]
  · cases enc with
    | some m => rfl
    | none =>
      cases ho : net (ordersRequest z) with
      | err e2 => simp [SendOrder, ho, SendOutcome.isErr]
      | ok r2 => simp [SendOrder, ho, SendOutcome.isErr]

/-- C5: with max_age = 0 and priority = 0 the details query omits both
parameters, and newer_than is sent (as a Unix timestamp) exactly when the
Time value is not the zero Time. -/
theorem detailsQuery_omits_zero_options (r : Retailer) (opts : ProductOptions)
    (hmax : opts.MaxAge = 0) (hpri : opts.Priority = 0) :
    (detailsValues r opts).lookup "max_age" = none ∧
    (detailsValues r opts).lookup "priority" = none ∧
    (detailsValues r opts).lookup "newer_than" =
      (if opts.NewerThan.isZeroTime then none
       else some (toString opts.NewerThan.unixSec)) := by
  cases hz : opts.NewerThan.isZeroTime <;>
    simp [detailsValues, hmax, hpri, hz, List.lookup]

/-- Witness for C5: zero max_age and priority are omitted while a set
newer_than is sent as its Unix timestamp. -/
theorem detailsQuery_omits_zero_options_witness :
    (detailsValues Amazon optsZeroAgePriority).lookup "max_age" = none ∧
    (detailsValues Amazon optsZeroAgePriority).lookup "priority" = none ∧
    (detailsValues Amazon optsZeroAgePriority).lookup "newer_than" = some "12345" := by
  have h := detailsQuery_omits_zero_options Amazon optsZeroAgePriority rfl rfl
  exact ⟨h.1, h.2.1, h.2.2.trans (by decide)⟩

/-- C7: the offers fetch issues a GET to {base}/products/{id}/offers whose
query always carries the fixed version=2 parameter, with the same
retailer/max_age/newer_than rules as the details fetch. -/
theorem offersRequest_get_with_version (z : Zinc) (pid : String)
    (r : Retailer) (opts : ProductOptions) :
    (offersRequest z pid r opts).method = "GET" ∧
    (offersRequest z pid r opts).url =
      z.ZincBaseURL ++ "/products/" ++ pid ++ "/offers?" ++
        urlValuesEncode (offersValues r opts) ∧
    (offersValues r opts).lookup "version" = some "2" ∧
    (offersValues r opts).lookup "retailer" = some r ∧
    (detailsValues r opts).lookup "retailer" = some r ∧
    (offersValues r opts).lookup "max_age" =
      (detailsValues r opts).lookup "max_age" ∧
    (offersValues r opts).lookup "newer_than" =
      (detailsValues r opts).lookup "newer_than" := by
  refine ⟨rfl, rfl, ?_, ?_, ?_, ?_, ?_⟩ <;>
    (by_cases hm : opts.MaxAge = 0 <;>
      cases hz : opts.NewerThan.isZeroTime <;>
      by_cases hp : opts.Priority = 0 <;>
      simp [offersValues, detailsValues, hm, hz, hp, List.lookup])

end Golangsdk
